import Mathlib

/-!
# Verification of the TracerComparison memory-statistics collectors

Shallow embedding of `static_memstats_collector.py` (the dynamic
`MemStatsCollector` and the static `MemStatsCollectorStatic.init_mem_stats`
simulation) and of `verify_tracer_v3.py` (`MyParamHook.pre_op`), together
with theorems settling the frozen specification claims.

Conventions of the embedding:
* Python `int` values (byte counts, allocator readings) are `Int`; metadata
  sizes returned by `calculate_fwd_tmp` / `calculate_fwd_out` and tensor byte
  sizes (`numel * element_size`) are `Nat` (they are sizes, hence
  non-negative) and are cast to `Int` where arithmetic mixes them.
* Python exceptions become an explicit `Err` value returned through
  `Except`.  The `assert` statements of the source raise `AssertionError`;
  the specification's error taxonomy names the phase asserts `PhaseError`
  and the sample-length assert `InvariantViolation`, and we use those names.
  Indexing an empty list with `[-1]` raises `IndexError`, modelled by
  `Err.indexError`; an unknown device string raises `TypeError`.
* Reads of the external allocator / monitor (`SyncCudaMemoryMonitor.finish`,
  `torch.cuda.memory_allocated`, `colo_device_memory_used`, `time.time`,
  module weight sizes) are passed to each operation as explicit arguments:
  they are environment inputs, not state of the collector.
* Calls whose only effect is on the external monitor
  (`self._mem_monitor.start()` / the trailing `finish()`) are dropped from
  the state transition, since no claim observes the monitor.
-/

/-- Python exception outcomes relevant to the collectors.  `phaseError` and
`invariantViolation` are the specification's names for the corresponding
`assert` failures in the source. -/
inductive Err where
  | typeError
  | phaseError
  | invariantViolation
  | indexError
  deriving DecidableEq, Repr

/-- State of `MemStatsCollector` (fields of `__init__`, lines 32-46 of
`static_memstats_collector.py`).  List fields keep the source names. -/
structure MemStatsCollector where
  model_data_cuda_list : List Int
  overall_cuda_list : List Int
  model_data_cpu_list : List Int
  overall_cpu_list : List Int
  non_model_data_cuda_list : List Int
  non_model_data_cpu_list : List Int
  sampling_time : List Int
  start_flag : Bool
  step_idx : Nat
  step_total : Nat
  deriving DecidableEq, Repr

namespace MemStatsCollector

/-- The freshly constructed collector (`__init__`). -/
def init : MemStatsCollector :=
  { model_data_cuda_list := []
    overall_cuda_list := []
    model_data_cpu_list := []
    overall_cpu_list := []
    non_model_data_cuda_list := []
    non_model_data_cpu_list := []
    sampling_time := []
    start_flag := false
    step_idx := 0
    step_total := 0 }

/-- Model of `non_model_data_list(device_type)`: device dispatch with `TypeError` on an
unknown device string (lines 64-70). -/
def non_model_data_list (s : MemStatsCollector) (device_type : String) :
    Except Err (List Int) :=
  if device_type = "cuda" then .ok s.non_model_data_cuda_list
  else if device_type = "cpu" then .ok s.non_model_data_cpu_list
  else .error .typeError

/-- Model of `next_period_non_model_data_usage(device_type)` (lines 72-85): asserts
that collection is not in progress and that `_step_total > 0` (both
`PhaseError` in the spec taxonomy), then returns the entry at `_step_idx`
and advances the cursor modulo `_step_total`.  Indexing past the end of the
recorded list is Python's `IndexError`. -/
def next_period_non_model_data_usage (s : MemStatsCollector)
    (device_type : String) : Except Err (Int × MemStatsCollector) := do
  if s.start_flag then .error .phaseError
  else if ¬ 0 < s.step_total then .error .phaseError
  else do
    let lst ← s.non_model_data_list device_type
    match lst.get? s.step_idx with
    | none => .error .indexError
    | some v =>
        .ok (v, { s with step_idx := (s.step_idx + 1) % s.step_total })

/-- Model of `start_collection()` (lines 91-93): sets the flag and opens the monitor
window.  The method body has no failure path, so it always returns `.ok`. -/
def start_collection (s : MemStatsCollector) : Except Err MemStatsCollector :=
  .ok { s with start_flag := true }

/-- Model of `sample_model_data(module)` (lines 101-114).  Environment inputs:
`cuda_alloc` is `torch.cuda.memory_allocated()`, `cpu_mem` is
`StatefulTensor.GST_MGR.total_mem['cpu']`, `weight_bytes` is
`module.weight.data.numel() * 4` (the source multiplies by the float
`4.0`; weights have whole-byte sizes so the value is an integer).
`64*1024*4.0 = 262144`.  The `getLastD` reads are guarded by the
non-emptiness tests of the surrounding branches, mirroring `[-1]`. -/
def sample_model_data (s : MemStatsCollector)
    (cuda_alloc cpu_mem weight_bytes : Int) : MemStatsCollector :=
  if s.start_flag then
    let cuda_val : Int :=
      if s.model_data_cuda_list.length = 0 then cuda_alloc - 262144
      else if s.model_data_cuda_list.length ≤ 7 then
        s.model_data_cuda_list.getLastD 0
      else s.model_data_cuda_list.getLastD 0 + weight_bytes
    { s with
      model_data_cuda_list := s.model_data_cuda_list ++ [cuda_val]
      model_data_cpu_list := s.model_data_cpu_list ++ [cpu_mem] }
  else s

/-- Model of `sample_overall_data()` (lines 116-132).  Environment inputs:
`monitor_finish` is `self._mem_monitor.finish()`, `cpu_used` is
`colo_device_memory_used(cpu)`, `t` is `time.time()` (timestamps are
modelled as `Int`; only the length of `_sampling_time` is ever observed).
Control flow of the source, in order: silent no-op unless `_start_flag`;
silent no-op when `_model_data_cuda_list` is empty; append to the two
overall lists; `assert len(model_cuda) == len(overall_cuda)`
(`InvariantViolation`); append the cuda and cpu non-model differences —
`self._model_data_cpu_list[-1]` raises `IndexError` when that list is
empty; append the timestamp. -/
def sample_overall_data (s : MemStatsCollector)
    (monitor_finish cpu_used t : Int) : Except Err MemStatsCollector :=
  if ¬ s.start_flag then .ok s
  else if s.model_data_cuda_list.length = 0 then .ok s
  else
    let s1 := { s with
      overall_cuda_list := s.overall_cuda_list ++ [monitor_finish]
      overall_cpu_list := s.overall_cpu_list ++ [cpu_used] }
    if s1.model_data_cuda_list.length = s1.overall_cuda_list.length then
      if s1.model_data_cpu_list.length = 0 then .error .indexError
      else
        .ok { s1 with
          non_model_data_cuda_list := s1.non_model_data_cuda_list ++
            [s1.overall_cuda_list.getLastD 0 - s1.model_data_cuda_list.getLastD 0]
          non_model_data_cpu_list := s1.non_model_data_cpu_list ++
            [s1.overall_cpu_list.getLastD 0 - s1.model_data_cpu_list.getLastD 0]
          sampling_time := s1.sampling_time ++ [t] }
    else .error .invariantViolation

/-- Model of `finish_collection()` (lines 95-99): one final `sample_overall_data()`,
then `_step_total = len(self._sampling_time)` and the flag is lowered. -/
def finish_collection (s : MemStatsCollector)
    (monitor_finish cpu_used t : Int) : Except Err MemStatsCollector := do
  let s1 ← s.sample_overall_data monitor_finish cpu_used t
  .ok { s1 with step_total := s1.sampling_time.length, start_flag := false }

/-- Model of `clear()` (lines 134-146).  Note: the source resets the six sample
lists, the flag, the cursor and the total, but does **not** reset
`_sampling_time`; the embedding reproduces that omission. -/
def clear (s : MemStatsCollector) : MemStatsCollector :=
  { s with
    model_data_cuda_list := []
    overall_cuda_list := []
    model_data_cpu_list := []
    overall_cpu_list := []
    non_model_data_cpu_list := []
    non_model_data_cuda_list := []
    start_flag := false
    step_idx := 0
    step_total := 0 }

end MemStatsCollector

/-!
## Static collector: `MemStatsCollectorStatic.init_mem_stats`

The traced graph is embedded as a list of `FxNode` in forward topological
order; a node's identity (the dictionary key used for `fwd_out_released`
and `grad_in_computed`) is its index in that list, and `args` holds the
indices of the argument nodes (entries of `node.args` that are
`torch.fx.node.Node`; non-`Node` arguments are skipped by the source's
`isinstance` tests and are therefore omitted from the embedding).

Per-node metadata, all byte counts:
* `fwd_tmp` / `fwd_out` are the values of `calculate_fwd_tmp(node)` /
  `calculate_fwd_out(node)`;
* `bwd_mem_tmp` / `bwd_mem_out` are `node.meta["bwd_mem_tmp"]` /
  `node.meta["bwd_mem_out"]`;
* `fwd_out_tensors` lists `t.numel() * t.element_size()` for each entry `t`
  of `node.meta["fwd_out"]` that is a `torch.Tensor`.
-/

/-- A node of the traced `torch.fx` graph, in forward topological order. -/
structure FxNode where
  name : String
  op : String
  target : String
  args : List Nat
  fwd_tmp : Nat
  fwd_out : Nat
  bwd_mem_tmp : Nat
  bwd_mem_out : Nat
  fwd_out_tensors : List Nat
  deriving DecidableEq, Repr

namespace StaticSim

/-- Python's substring test `pat in s`, on the character lists. -/
def pyIn (pat s : String) : Bool := decide (pat.data <:+: s.data)

/-- Python's `s.replace(".", "_")` (single-character pattern). -/
def replaceDots (s : String) : String := ⟨s.data.map fun c => if c = '.' then '_' else c⟩

/-- Python's `s.endswith(suf)`. -/
def pyEndsWith (s suf : String) : Bool := suf.data.isSuffixOf s.data

/-- Python's `s[:-2]` (drop the last two characters). -/
def dropLast2 (s : String) : String := ⟨s.data.dropLast.dropLast⟩

/-- The module-boundary test applied to a node in both phases (lines
202-204 and 265-267): a `call_module` node whose target, with `.` replaced
by `_`, ends in `"_0"` and whose stem is a registered module full name.
`node.target` of a `call_module` node is always a string, so the source's
`isinstance(node.target, str)` test is identically true here. -/
def isBoundaryNode (module_name_list : List String) (n : FxNode) : Bool :=
  n.op == "call_module" &&
    (let module_name := replaceDots n.target
     pyEndsWith module_name "_0" && module_name_list.contains (dropLast2 module_name))

/-- One step of the Phase A forward loop (lines 197-208), acting on
`(total_mem, samples)`: accumulate `fwd_tmp + fwd_out` and record `total_mem`
at module boundaries. -/
def phaseA_step (module_name_list : List String) (st : Int × List Int)
    (n : FxNode) : Int × List Int :=
  let total := st.1 + (n.fwd_tmp : Int) + (n.fwd_out : Int)
  if isBoundaryNode module_name_list n then (total, st.2 ++ [total])
  else (total, st.2)

/-- The Phase A forward loop also zeroes `meta["bwd_mem_tmp"]` and
`meta["bwd_mem_out"]` of each boundary node (lines 206-207).  Phase A never
reads those two fields, and Phase B starts only after the forward loop has
finished, so the in-place mutation is equivalent to this map applied to the
whole node list before Phase B. -/
def zeroBwdOnBoundary (module_name_list : List String) (n : FxNode) : FxNode :=
  if isBoundaryNode module_name_list n then
    { n with bwd_mem_tmp := 0, bwd_mem_out := 0 }
  else n

/-- Value of `calculate_fwd_out(in_node)` looked up through an argument index.  Args
of a well-formed graph index into the node list; a dangling index
contributes 0. -/
def fwd_out_of (nodes : List FxNode) (i : Nat) : Nat :=
  ((nodes.get? i).map FxNode.fwd_out).getD 0

/-- Total bytes of the genuine-tensor entries of `node.meta["fwd_out"]`
(the loop of lines 245-247 and the re-adds of lines 270-272). -/
def gradInBytes (n : FxNode) : Int :=
  n.fwd_out_tensors.foldl (fun a (b : Nat) => a + (b : Int)) 0

/-- State of the Phase B backward replay: the running `total_mem` and
`peak_mem`, the set of node indices whose `fwd_out_released` flag is `True`,
the set of node indices whose `grad_in_computed` entry is `True`, and the
sample list being appended to. -/
structure PhaseBState where
  total : Int
  peak : Int
  released : List Nat
  gradComputed : List Nat
  samples : List Int
  deriving DecidableEq, Repr

/-- Body of the argument loop (lines 249-258) for one argument index:
first the `fwd_out_released` release, then the `grad_in_computed` test.
Note that the source sets `grad_in_computed[in_node] = True` only *inside*
the branch guarded by `grad_in_computed.get(in_node, False)`. -/
def phaseB_arg_step (nodes : List FxNode) (acc : Int × List Nat × List Nat)
    (i : Nat) : Int × List Nat × List Nat :=
  let t := acc.1
  let rel := acc.2.1
  let gc := acc.2.2
  let step1 : Int × List Nat :=
    if 0 < fwd_out_of nodes i ∧ i ∉ rel then
      (t - (fwd_out_of nodes i : Int), i :: rel)
    else (t, rel)
  let step2 : Int × List Nat :=
    if i ∈ gc then (step1.1 - (fwd_out_of nodes i : Int), i :: gc)
    else (step1.1, gc)
  (step2.1, step1.2, step2.2)

/-- Processing of one node in the Phase B reverse loop (lines 217-274):
skip `where`/`truediv`-named nodes; charge `bwd_mem_tmp + bwd_mem_out` and
update the peak; discharge `bwd_mem_tmp`, `fwd_tmp` and the node's own
forward-output tensors; run the argument loop; re-add the argument
forward-outputs at the `output` node; at a module boundary record `peak_mem`,
re-add the boundary's forward-output tensors and reset the peak. -/
def phaseB_node (nodes : List FxNode) (module_name_list : List String)
    (st : PhaseBState) (n : FxNode) : PhaseBState :=
  if pyIn "where" n.name then st
  else if pyIn "truediv" n.name then st
  else
    let total1 := st.total + (n.bwd_mem_tmp : Int) + (n.bwd_mem_out : Int)
    let peak1 := max st.peak total1
    let total2 := total1 - (n.bwd_mem_tmp : Int) - (n.fwd_tmp : Int)
    let total3 := total2 - gradInBytes n
    let argRes := n.args.foldl (phaseB_arg_step nodes)
      (total3, st.released, st.gradComputed)
    let total4 := argRes.1
    let total5 :=
      if n.name == "output" then
        total4 + n.args.foldl (fun a i => a + (fwd_out_of nodes i : Int)) 0
      else total4
    if isBoundaryNode module_name_list n then
      { total := total5 + gradInBytes n
        peak := total5 + gradInBytes n
        released := argRes.2.1
        gradComputed := argRes.2.2
        samples := st.samples ++ [peak1] }
    else
      { total := total5
        peak := peak1
        released := argRes.2.1
        gradComputed := argRes.2.2
        samples := st.samples }

/-- The whole Phase B reverse traversal (`gm.graph.nodes.__reversed__()`). -/
def phaseB_run (nodes : List FxNode) (module_name_list : List String)
    (init : PhaseBState) : PhaseBState :=
  nodes.reverse.foldl (phaseB_node nodes module_name_list) init

/-- The successive Phase B states, starting from `init`, one entry per
processed node (observation points of the simulation). -/
def phaseB_trace (nodes : List FxNode) (module_name_list : List String)
    (init : PhaseBState) : List PhaseBState :=
  nodes.reverse.scanl (phaseB_node nodes module_name_list) init

/-- The initial Phase B state after Phase A handed over `total_mem` and the
forward samples: `peak_mem = total_mem` (line 214), `grad_in_computed = {}`
(line 215), and every `fwd_out_released` flag is `False` (set at line 201). -/
def phaseB_init (total : Int) (samples : List Int) : PhaseBState :=
  { total := total, peak := total, released := [], gradComputed := []
    samples := samples }

/-- Model of `MemStatsCollectorStatic.init_mem_stats` restricted to the simulation
proper (lines 191-276), starting from an empty `_non_model_data_cuda_list`:
Phase A fold, the trailing append plus `list[1:]` (lines 211-212), then
Phase B on the graph with boundary backward costs zeroed.  Returns the
final `_non_model_data_cuda_list` and `_step_total`. -/
def init_mem_stats (nodes : List FxNode) (module_name_list : List String) :
    List Int × Nat :=
  let fwdRes := nodes.foldl (phaseA_step module_name_list) (0, ([] : List Int))
  let total_mem := fwdRes.1
  let samplesA := (fwdRes.2 ++ [total_mem]).drop 1
  let nodesB := nodes.map (zeroBwdOnBoundary module_name_list)
  let stB := phaseB_run nodesB module_name_list (phaseB_init total_mem samplesA)
  (stB.samples, stB.samples.length)

/-- Number of graph nodes that are module-boundary calls for the registry. -/
def boundaryCount (nodes : List FxNode) (module_name_list : List String) : Nat :=
  (nodes.filter (isBoundaryNode module_name_list)).length

/-- Number of registry entries (module full names) whose wrapped call
appears somewhere in the graph. -/
def registryAppearingCount (nodes : List FxNode)
    (module_name_list : List String) : Nat :=
  (module_name_list.filter (fun m => nodes.any (fun n => isBoundaryNode [m] n))).length

end StaticSim

/-!
## Runtime hook of `verify_tracer_v3.py`: `MyParamHook`

`MemInfo` is the class-level mutable state; a parameter tensor is embedded
as a `ParamT` with an identity `id`, its byte volume
`p.data.numel() * p.data.element_size()`, and its `requires_grad` flag.
`unreleased_grad_flag` is modelled as the list of parameter ids currently
mapped to `True` (`_pre_forward` registers every parameter with the flag
`False`, i.e. absent from this list).  Environment inputs of the hook:
`cuda_volume = self.mem_monitor.finish()` and
`mem_allocated = torch.cuda.memory_allocated()`.
-/

/-- The `TrainingPhase` enumeration of `verify_tracer_v3.py`. -/
inductive TrainingPhase where
  | FORWARD
  | BACKWARD
  deriving DecidableEq, Repr

/-- A parameter tensor as seen by the hook. -/
structure ParamT where
  id : Nat
  data_bytes : Nat
  requires_grad : Bool
  deriving DecidableEq, Repr

/-- The class-level `MemInfo` state of `verify_tracer_v3.py` (lines 24-28). -/
structure MemInfo where
  model_data_list : List Int
  non_model_data_list : List Int
  unreleased_grad_flag : List Nat
  temp_grad_volume : Int
  deriving DecidableEq, Repr

/-- The per-instance state of `MyParamHook`: `model_data_mem` and the
current training phase. -/
structure MyParamHook where
  model_data_mem : Int
  training_phase : TrainingPhase
  deriving DecidableEq, Repr

namespace MyParamHook

/-- The loop body of `sample_model_data`'s backward branch (lines 44-54),
acting on `(data_volume, model_data_mem, unreleased_grad_flag,
temp_grad_volume)`. -/
def sample_param_step (acc : Int × Int × List Nat × Int) (p : ParamT) :
    Int × Int × List Nat × Int :=
  let dv := acc.1
  let mm := acc.2.1
  let fl := acc.2.2.1
  let tg := acc.2.2.2
  if p.requires_grad then
    if p.id ∈ fl then (dv + (p.data_bytes : Int), mm, fl, tg + (p.data_bytes : Int))
    else (dv + (p.data_bytes : Int), mm + (p.data_bytes : Int), p.id :: fl, tg)
  else (dv, mm, fl, tg)

/-- Model of `MyParamHook.sample_model_data(params)` (lines 40-55).  In the forward
phase it appends the constant `model_data_mem`; in the backward phase it
runs the parameter loop and appends the resulting `data_volume` (which
starts from the *pre-loop* `model_data_mem`). -/
def sample_model_data (h : MyParamHook) (m : MemInfo) (params : List ParamT) :
    MyParamHook × MemInfo :=
  match h.training_phase with
  | .FORWARD =>
      (h, { m with model_data_list := m.model_data_list ++ [h.model_data_mem] })
  | .BACKWARD =>
      let r := params.foldl sample_param_step
        (h.model_data_mem, h.model_data_mem, m.unreleased_grad_flag,
          m.temp_grad_volume)
      ({ h with model_data_mem := r.2.1 },
        { m with
          model_data_list := m.model_data_list ++ [r.1]
          unreleased_grad_flag := r.2.2.1
          temp_grad_volume := r.2.2.2 })

/-- Model of `MyParamHook.pre_op(params)` (lines 58-73).  `cuda_volume` is the
monitor reading taken on entry, `mem_allocated` is
`torch.cuda.memory_allocated()` read inside the `max`.  If at least one
model-data sample exists: in the backward phase with
`temp_grad_volume > 0`, overwrite the last non-model sample with the
three-way `max` and zero `temp_grad_volume` — reading
`non_model_data_list[-1]` on an empty list is Python's `IndexError` —
otherwise append a fresh `cuda_volume - model_data_list[-1]` sample.
Then `sample_model_data(params)` runs (the trailing `mem_monitor.start()`
only touches the external monitor). -/
def pre_op (h : MyParamHook) (m : MemInfo) (params : List ParamT)
    (cuda_volume mem_allocated : Int) :
    Except Err (MyParamHook × MemInfo) := do
  let m1 ← (
    if m.model_data_list.length ≠ 0 then
      if h.training_phase = .BACKWARD ∧ m.temp_grad_volume > 0 then
        if m.non_model_data_list.length = 0 then
          (.error .indexError : Except Err MemInfo)
        else
          let max_non_model_data :=
            max (m.non_model_data_list.getLastD 0)
              (max (cuda_volume - m.temp_grad_volume - m.model_data_list.getLastD 0)
                (mem_allocated - h.model_data_mem))
          .ok { m with
            non_model_data_list := m.non_model_data_list.dropLast ++ [max_non_model_data]
            temp_grad_volume := 0 }
      else
        .ok { m with
          non_model_data_list := m.non_model_data_list ++
            [cuda_volume - m.model_data_list.getLastD 0] }
    else .ok m)
  .ok (sample_model_data h m1 params)

end MyParamHook

/-!
## Derived runs and concrete instances used by the theorems
-/

namespace MemStatsCollector

/-- Run of `n` successive calls of `next_period_non_model_data_usage`, collecting
the returned values in order and threading the collector state. -/
def replaySteps (device_type : String) : Nat → MemStatsCollector →
    Except Err (List Int × MemStatsCollector)
  | 0, s => .ok ([], s)
  | n + 1, s => do
      let (v, s1) ← s.next_period_non_model_data_usage device_type
      let (vs, s2) ← replaySteps device_type n s1
      .ok (v :: vs, s2)

/-- The value returned by the `(n+1)`-th call of
`next_period_non_model_data_usage` (i.e. the call made after `n` previous
calls). -/
def nthCallValue (device_type : String) (s : MemStatsCollector) (n : Nat) :
    Except Err Int := do
  let (_, s1) ← replaySteps device_type n s
  let (v, _) ← s1.next_period_non_model_data_usage device_type
  .ok v

/-- A collector that has finished a collection of two samples per device
and sits at the start of the replay phase. -/
def sReplay : MemStatsCollector :=
  { init with
    non_model_data_cuda_list := [5, 7]
    non_model_data_cpu_list := [50, 70]
    step_total := 2 }

/-- A collector in the middle of the collection phase with no samples yet
(the state straight after the first `start_collection()`). -/
def sCollecting : MemStatsCollector := { init with start_flag := true }

/-- Two consecutive `sample_overall_data()` calls from the fresh collecting
state, with no intervening `sample_model_data`. -/
def c7_two_calls : Except Err MemStatsCollector := do
  let s1 ← sCollecting.sample_overall_data 5 6 0
  s1.sample_overall_data 7 8 1

/-- A collecting state that has recorded one model-data sample and is
balanced (`len(model) = len(non_model) + 1`). -/
def sBalanced : MemStatsCollector :=
  { init with
    start_flag := true
    model_data_cuda_list := [100]
    model_data_cpu_list := [10] }

/-- The two-cycle run exercising `clear()`: collect one sample, finish,
clear, collect one more sample, finish. -/
def c8_run : Except Err MemStatsCollector := do
  let s1 ← init.start_collection
  let s2 := s1.sample_model_data 300000 10 0
  let s3 ← s2.finish_collection 50 20 0
  let s4 := s3.clear
  let s5 ← s4.start_collection
  let s6 := s5.sample_model_data 300000 10 0
  s6.finish_collection 60 25 1

/-- After the two-cycle run, read the replay sequence twice. -/
def c8_replay_twice : Except Err Int := do
  let s ← c8_run
  let (_, s1) ← s.next_period_non_model_data_usage "cuda"
  let (v, _) ← s1.next_period_non_model_data_usage "cuda"
  .ok v

end MemStatsCollector

/-- Graph with one forward output (4 bytes, node 0) consumed by two
downstream nodes (1 and 2): the shape on which the second-reference
collapse of the specification would have to fire at the
later-in-reverse-order consumer. -/
def c1graph : List FxNode :=
  [ { name := "p", op := "call_function", target := "f", args := []
      fwd_tmp := 0, fwd_out := 4, bwd_mem_tmp := 0, bwd_mem_out := 0
      fwd_out_tensors := [4] }
  , { name := "c1", op := "call_function", target := "g", args := [0]
      fwd_tmp := 0, fwd_out := 0, bwd_mem_tmp := 0, bwd_mem_out := 0
      fwd_out_tensors := [] }
  , { name := "c2", op := "call_function", target := "h", args := [0]
      fwd_tmp := 0, fwd_out := 0, bwd_mem_tmp := 0, bwd_mem_out := 0
      fwd_out_tensors := [] }
  , { name := "output", op := "output", target := "output", args := [2]
      fwd_tmp := 0, fwd_out := 0, bwd_mem_tmp := 0, bwd_mem_out := 0
      fwd_out_tensors := [] } ]

/-- Graph of a single wrapped module `layer1`: placeholder, the identity
marker call `layer1.0`, the module body call `layer1.1`, output. -/
def c2graph : List FxNode :=
  [ { name := "x", op := "placeholder", target := "x", args := []
      fwd_tmp := 0, fwd_out := 4, bwd_mem_tmp := 0, bwd_mem_out := 0
      fwd_out_tensors := [4] }
  , { name := "layer1_0", op := "call_module", target := "layer1.0", args := [0]
      fwd_tmp := 0, fwd_out := 0, bwd_mem_tmp := 0, bwd_mem_out := 0
      fwd_out_tensors := [] }
  , { name := "layer1_1", op := "call_module", target := "layer1.1", args := [1]
      fwd_tmp := 0, fwd_out := 8, bwd_mem_tmp := 2, bwd_mem_out := 4
      fwd_out_tensors := [8] }
  , { name := "output", op := "output", target := "output", args := [2]
      fwd_tmp := 0, fwd_out := 0, bwd_mem_tmp := 0, bwd_mem_out := 0
      fwd_out_tensors := [] } ]

/-!
## Theorems
-/

namespace MemStatsCollector

set_option maxRecDepth 4000

/-- Helper: the successful outcome of one `next_period_non_model_data_usage`
call in a valid replay state. -/
theorem next_ok_spec (s : MemStatsCollector) (d : String) (l : List Int)
    (hd : s.non_model_data_list d = .ok l)
    (hflag : s.start_flag = false)
    (htot : s.step_total = l.length)
    (hidx : s.step_idx < l.length) :
    s.next_period_non_model_data_usage d =
      .ok (l.getD s.step_idx 0,
        { s with step_idx := (s.step_idx + 1) % l.length }) := by
  have hlen : 0 < l.length := Nat.lt_of_le_of_lt (Nat.zero_le _) hidx
  have hget : l[s.step_idx]? = some (l.getD s.step_idx 0) := by
    simp [List.getElem?_eq_getElem hidx, List.getD_eq_getElem?_getD]
  unfold MemStatsCollector.next_period_non_model_data_usage
  rw [hd]
  rw [if_neg (by simp [hflag]), if_neg (by simp [htot, hlen])]
  have hget2 : l.get? s.step_idx = some (l.getD s.step_idx 0) := by
    rw [List.get?_eq_getElem?]; exact hget
  show (match l.get? s.step_idx with
      | none => (Except.error Err.indexError : Except Err (Int × MemStatsCollector))
      | some v => Except.ok (v, { s with step_idx := (s.step_idx + 1) % s.step_total })) =
    Except.ok (l.getD s.step_idx 0, { s with step_idx := (s.step_idx + 1) % l.length })
  rw [hget2, htot]

end MemStatsCollector

/-- Reduction of the `Except` bind on a success value. -/
theorem except_bind_ok {ε α β : Type} (a : α) (f : α → Except ε β) :
    (Except.ok a >>= f) = f a := rfl

/-- Reduction of the `Except` bind on an error value. -/
theorem except_bind_error {ε α β : Type} (e : ε) (f : α → Except ε β) :
    ((Except.error e : Except ε α) >>= f) = Except.error e := rfl

/-- C5: `next_period_non_model_data_usage` fails with `PhaseError` while
collection is in progress or when no collection has fixed a positive
`_step_total`; when it succeeds, the collector was in the replay phase with
`_step_total > 0` and the returned value is the recorded non-model sample at
the cursor `_step_idx`. -/
theorem C5_next_period_phase_guard (s : MemStatsCollector) (d : String) :
    (s.start_flag = true →
      s.next_period_non_model_data_usage d = .error .phaseError) ∧
    (s.step_total = 0 →
      s.next_period_non_model_data_usage d = .error .phaseError) ∧
    (∀ v s', s.next_period_non_model_data_usage d = .ok (v, s') →
      s.start_flag = false ∧ 0 < s.step_total ∧
      ∃ l, s.non_model_data_list d = .ok l ∧ l.get? s.step_idx = some v) := by
  refine ⟨?_, ?_, ?_⟩
  · intro h
    simp [MemStatsCollector.next_period_non_model_data_usage, h]
  · intro h
    by_cases hs : s.start_flag <;>
      simp [MemStatsCollector.next_period_non_model_data_usage, h, hs]
  · intro v s' h
    by_cases hs : s.start_flag
    · simp [MemStatsCollector.next_period_non_model_data_usage, hs] at h
    · by_cases ht : 0 < s.step_total
      · refine ⟨by simpa using hs, ht, ?_⟩
        cases hl : s.non_model_data_list d with
        | error e =>
          simp [MemStatsCollector.next_period_non_model_data_usage, hs, ht, hl,
            except_bind_error] at h
        | ok l =>
          cases hg : l.get? s.step_idx with
          | none =>
            rw [List.get?_eq_getElem?] at hg
            simp [MemStatsCollector.next_period_non_model_data_usage, hs, ht, hl,
              except_bind_ok, hg] at h
          | some w =>
            rw [List.get?_eq_getElem?] at hg
            simp [MemStatsCollector.next_period_non_model_data_usage, hs, ht, hl,
              except_bind_ok, hg] at h
            exact ⟨l, rfl, by rw [List.get?_eq_getElem?, hg]; exact congrArg some h.1⟩
      · simp [MemStatsCollector.next_period_non_model_data_usage, hs, ht] at h

/-- C5 witness: from the mid-collection state the call fails with
`PhaseError`. -/
theorem C5_witness :
    MemStatsCollector.sCollecting.next_period_non_model_data_usage "cuda" =
      .error .phaseError :=
  (C5_next_period_phase_guard MemStatsCollector.sCollecting "cuda").1 rfl

/-- C9 (amended): `start_collection()` performs no phase check — its body
only raises the flag (and restarts the external monitor window), so it
succeeds from every state, including a state that is already collecting; it
never fails with `PhaseError`. -/
theorem C9_start_collection_never_fails (s : MemStatsCollector) :
    s.start_collection = .ok { s with start_flag := true } := rfl

/-- C9 counterexample: from a state that is already collecting,
`start_collection()` succeeds (returning the same collecting state) instead
of failing with `PhaseError` as the claim requires. -/
theorem C9_counterexample :
    MemStatsCollector.sCollecting.start_flag = true ∧
    MemStatsCollector.sCollecting.start_collection =
      .ok MemStatsCollector.sCollecting := ⟨rfl, rfl⟩

/-- C10: every successful `next_period_non_model_data_usage` call produces
the same successor state regardless of the requested device: the single
shared cursor `_step_idx` advances by one modulo `_step_total` and nothing
else changes, so interleaved cuda/cpu reads share one rotation. -/
theorem C10_shared_cursor (s : MemStatsCollector) (d : String) (v : Int)
    (s' : MemStatsCollector)
    (h : s.next_period_non_model_data_usage d = .ok (v, s')) :
    s' = { s with step_idx := (s.step_idx + 1) % s.step_total } := by
  by_cases hs : s.start_flag
  · simp [MemStatsCollector.next_period_non_model_data_usage, hs] at h
  · by_cases ht : 0 < s.step_total
    · cases hl : s.non_model_data_list d with
      | error e =>
        simp [MemStatsCollector.next_period_non_model_data_usage, hs, ht, hl,
          except_bind_error] at h
      | ok l =>
        cases hg : l.get? s.step_idx with
        | none =>
          rw [List.get?_eq_getElem?] at hg
          simp [MemStatsCollector.next_period_non_model_data_usage, hs, ht, hl,
            except_bind_ok, hg] at h
        | some w =>
          rw [List.get?_eq_getElem?] at hg
          simp [MemStatsCollector.next_period_non_model_data_usage, hs, ht, hl,
            except_bind_ok, hg] at h
          have hs' : s.start_flag = false := by simpa using hs
          rw [hs']
          exact h.2.symm
    · simp [MemStatsCollector.next_period_non_model_data_usage, hs, ht] at h

/-- C10 witness: the successor state of a concrete cuda read is the shared
cursor advanced by one. -/
theorem C10_witness :
    ({ MemStatsCollector.sReplay with step_idx := 1 } : MemStatsCollector) =
      { MemStatsCollector.sReplay with
        step_idx := (MemStatsCollector.sReplay.step_idx + 1) %
          MemStatsCollector.sReplay.step_total } :=
  C10_shared_cursor MemStatsCollector.sReplay "cuda" 5 _ rfl

/-- C7 (amended): once the collector is collecting and at least one
model-data sample exists (and the ledger is consistent,
`len(overall) = len(nonModel)` with aligned cpu samples),
`sample_overall_data()` demands `len(model) = len(nonModel) + 1` and fails
with `InvariantViolation` otherwise; consequently two consecutive calls
with no intervening `sample_model_data` always end in `InvariantViolation`.
With an empty `modelDataSamples` the call is a silent no-op instead. -/
theorem C7_sample_overall_guard (s : MemStatsCollector)
    (mf cu t mf' cu' t' : Int)
    (hflag : s.start_flag = true)
    (hmodel : s.model_data_cuda_list ≠ [])
    (hcpu : s.model_data_cpu_list.length ≠ 0)
    (hcons : s.overall_cuda_list.length = s.non_model_data_cuda_list.length) :
    (s.model_data_cuda_list.length ≠ s.non_model_data_cuda_list.length + 1 →
      s.sample_overall_data mf cu t = .error .invariantViolation) ∧
    ((s.sample_overall_data mf cu t).bind
        (fun s1 => s1.sample_overall_data mf' cu' t') =
      .error .invariantViolation) := by
  have hml : s.model_data_cuda_list.length ≠ 0 := by
    simpa [List.length_eq_zero] using hmodel
  constructor
  · intro hne
    have hne' : s.model_data_cuda_list.length ≠ s.overall_cuda_list.length + 1 := by
      omega
    simp [MemStatsCollector.sample_overall_data, hflag, hml, hne']
  · by_cases hb : s.model_data_cuda_list.length = s.overall_cuda_list.length + 1
    · have h1 : s.sample_overall_data mf cu t = .ok
        { s with
          overall_cuda_list := s.overall_cuda_list ++ [mf]
          overall_cpu_list := s.overall_cpu_list ++ [cu]
          non_model_data_cuda_list := s.non_model_data_cuda_list ++
            [(s.overall_cuda_list ++ [mf]).getLastD 0 - s.model_data_cuda_list.getLastD 0]
          non_model_data_cpu_list := s.non_model_data_cpu_list ++
            [(s.overall_cpu_list ++ [cu]).getLastD 0 - s.model_data_cpu_list.getLastD 0]
          sampling_time := s.sampling_time ++ [t] } := by
        simp [MemStatsCollector.sample_overall_data, hflag, hml, hb, hcpu]
      rw [h1]
      simp only [Except.bind]
      have hne2 : s.model_data_cuda_list.length ≠ (s.overall_cuda_list ++ [mf]).length + 1 := by
        simp [List.length_append]
        omega
      simp [MemStatsCollector.sample_overall_data, hflag, hml, hne2]
      intro hc
      exact absurd hc (by omega)
    · have h1 : s.sample_overall_data mf cu t = .error .invariantViolation := by
        simp [MemStatsCollector.sample_overall_data, hflag, hml, hb]
      rw [h1]
      rfl

/-- C7 witness: from a balanced collecting state with one model-data
sample, two consecutive `sample_overall_data()` calls fail with
`InvariantViolation`. -/
theorem C7_witness :
    ((MemStatsCollector.sBalanced.sample_overall_data 5 6 0).bind
        (fun s1 => s1.sample_overall_data 7 8 1)) =
      .error .invariantViolation :=
  (C7_sample_overall_guard MemStatsCollector.sBalanced 5 6 0 7 8 1 rfl
    (by decide) (by decide) rfl).2

/-- C7 counterexample: from the fresh collecting state (no model-data
sample yet) two consecutive `sample_overall_data()` calls are silent
no-ops, returning the unchanged state instead of failing with
`InvariantViolation`. -/
theorem C7_counterexample :
    MemStatsCollector.c7_two_calls = .ok MemStatsCollector.sCollecting := rfl

/-- C8: the concrete two-cycle run — collect one sample, `finish`,
`clear()`, collect one more sample, `finish` — ends with `_step_total = 2`
although only one non-model sample is recorded, because `clear()` does not
reset `_sampling_time`; the second replay read then fails with an
`IndexError`. -/
theorem C8_clear_step_total_bug :
    (MemStatsCollector.c8_run.map
      (fun s => (s.step_total, s.non_model_data_cuda_list.length))) = .ok (2, 1) ∧
    MemStatsCollector.c8_replay_twice = .error .indexError := ⟨rfl, rfl⟩

/-- Reading every position of a list through `getD` reproduces the list. -/
theorem map_range_getD (l : List Int) :
    (List.range l.length).map (fun k => l.getD k 0) = l := by
  apply List.ext_getElem
  · simp
  · intro n h1 h2
    simp only [List.getElem_map, List.getElem_range]
    rw [List.getD_eq_getElem l 0 h2]

/-- Helper: `n` replay reads from cursor position `i` succeed, return the
recorded window starting at `i` and leave the cursor at `(i + n) % total`. -/
theorem replaySteps_spec (d : String) (l : List Int) (s : MemStatsCollector)
    (hd : s.non_model_data_list d = .ok l)
    (hflag : s.start_flag = false)
    (htot : s.step_total = l.length) :
    ∀ (n i : Nat), i < l.length →
      MemStatsCollector.replaySteps d n { s with step_idx := i } =
        .ok ((List.range n).map (fun k => l.getD ((i + k) % l.length) 0),
          { s with step_idx := (i + n) % l.length }) := by
  intro n
  induction n with
  | zero =>
    intro i hi
    simp [MemStatsCollector.replaySteps, Nat.mod_eq_of_lt hi]
  | succ n ih =>
    intro i hi
    have hlen : 0 < l.length := Nat.lt_of_le_of_lt (Nat.zero_le _) hi
    have hstep := MemStatsCollector.next_ok_spec { s with step_idx := i } d l hd hflag htot hi
    dsimp only at hstep
    rw [MemStatsCollector.replaySteps, hstep, except_bind_ok]
    have hi1 : (i + 1) % l.length < l.length := Nat.mod_lt _ hlen
    have ih1 := ih ((i + 1) % l.length) hi1
    dsimp only
    rw [ih1, except_bind_ok]
    refine congrArg Except.ok (Prod.ext ?_ ?_)
    · show l.getD i 0 :: _ = _
      rw [List.range_succ_eq_map, List.map_cons, List.map_map]
      refine congrArg₂ List.cons ?_ ?_
      · rw [Nat.add_zero, Nat.mod_eq_of_lt hi]
      · refine List.map_congr_left ?_
        intro k _
        simp only [Function.comp_apply]
        rw [Nat.mod_add_mod]
        congr 2
        omega
    · show ({ s with step_idx := ((i + 1) % l.length + n) % l.length } : MemStatsCollector) = _
      rw [Nat.mod_add_mod]
      congr 2
      omega

/-- C6: for a finished collection whose recorded sequence has positive
length `total`, replay is a pure rotation: the first `total` calls return
the recorded sequence in order and restore the exact starting state, and
the `(k·total + j + 1)`-th call returns the same value as the
`(j + 1)`-th call, namely the `j`-th recorded sample. -/
theorem C6_replay_rotation (s : MemStatsCollector) (d : String) (l : List Int)
    (hd : s.non_model_data_list d = .ok l)
    (hflag : s.start_flag = false)
    (htot : s.step_total = l.length)
    (hidx : s.step_idx = 0)
    (hlen : 0 < l.length) :
    MemStatsCollector.replaySteps d l.length s = .ok (l, s) ∧
    (∀ k j, j < l.length →
      MemStatsCollector.nthCallValue d s (k * l.length + j) =
        MemStatsCollector.nthCallValue d s j ∧
      MemStatsCollector.nthCallValue d s j = .ok (l.getD j 0)) := by
  have hs : s = { s with step_idx := 0 } := by
    cases s
    simp_all
  have hspec := replaySteps_spec d l s hd hflag htot
  have hrun : ∀ n : Nat, MemStatsCollector.replaySteps d n s =
      .ok ((List.range n).map (fun k => l.getD (k % l.length) 0),
        { s with step_idx := n % l.length }) := by
    intro n
    calc MemStatsCollector.replaySteps d n s
        = MemStatsCollector.replaySteps d n { s with step_idx := 0 } := by rw [← hs]
      _ = _ := by
          rw [hspec n 0 hlen]
          simp only [Nat.zero_add]
  have hval : ∀ n : Nat, MemStatsCollector.nthCallValue d s n =
      .ok (l.getD (n % l.length) 0) := by
    intro n
    unfold MemStatsCollector.nthCallValue
    rw [hrun n, except_bind_ok]
    have hmod : n % l.length < l.length := Nat.mod_lt _ hlen
    have hstep := MemStatsCollector.next_ok_spec { s with step_idx := n % l.length } d l
      hd hflag htot hmod
    dsimp only at hstep ⊢
    rw [hstep, except_bind_ok]
  constructor
  · rw [hrun l.length]
    refine congrArg Except.ok (Prod.ext ?_ ?_)
    · show (List.range l.length).map (fun k => l.getD (k % l.length) 0) = l
      calc (List.range l.length).map (fun k => l.getD (k % l.length) 0)
          = (List.range l.length).map (fun k => l.getD k 0) := by
            refine List.map_congr_left ?_
            intro k hk
            rw [Nat.mod_eq_of_lt (List.mem_range.mp hk)]
        _ = l := map_range_getD l
    · show ({ s with step_idx := l.length % l.length } : MemStatsCollector) = s
      rw [Nat.mod_self]
      exact hs.symm
  · intro k j hj
    have h1 : (k * l.length + j) % l.length = j := by
      rw [Nat.mul_comm, Nat.mul_add_mod, Nat.mod_eq_of_lt hj]
    constructor
    · rw [hval (k * l.length + j), hval j, h1, Nat.mod_eq_of_lt hj]
    · rw [hval j, Nat.mod_eq_of_lt hj]

/-- C6 witness: two reads from the finished two-sample collector return the
recorded sequence and restore the starting state. -/
theorem C6_witness :
    MemStatsCollector.replaySteps "cuda" 2 MemStatsCollector.sReplay =
      .ok ([5, 7], MemStatsCollector.sReplay) :=
  (C6_replay_rotation MemStatsCollector.sReplay "cuda" [5, 7] rfl rfl rfl rfl
    (by decide)).1

/-- Helper: the backward parameter loop leaves `temp_grad_volume` unchanged
when none of the (distinct) parameters has its unreleased-grad flag set. -/
theorem sample_fold_temp (params : List ParamT) :
    ∀ (dv mm tg : Int) (fl : List Nat),
      (∀ p ∈ params, p.id ∉ fl) → (params.map ParamT.id).Nodup →
      (params.foldl MyParamHook.sample_param_step (dv, mm, fl, tg)).2.2.2 = tg := by
  induction params with
  | nil => intro dv mm tg fl _ _; rfl
  | cons p tl ih =>
    intro dv mm tg fl hfl hnd
    have hpid : p.id ∉ fl := hfl p (List.mem_cons_self p tl)
    have hnd' : (tl.map ParamT.id).Nodup := (List.nodup_cons.mp hnd).2
    have hph : p.id ∉ tl.map ParamT.id := (List.nodup_cons.mp hnd).1
    by_cases hrg : p.requires_grad
    · rw [List.foldl_cons]
      have hstep : MyParamHook.sample_param_step (dv, mm, fl, tg) p =
          (dv + (p.data_bytes : Int), mm + (p.data_bytes : Int), p.id :: fl, tg) := by
        simp [MyParamHook.sample_param_step, hrg, hpid]
      rw [hstep]
      apply ih
      · intro q hq
        simp only [List.mem_cons]
        push_neg
        refine ⟨?_, hfl q (List.mem_cons_of_mem p hq)⟩
        intro hqp
        exact hph (hqp ▸ List.mem_map_of_mem ParamT.id hq)
      · exact hnd'
    · rw [List.foldl_cons]
      have hstep : MyParamHook.sample_param_step (dv, mm, fl, tg) p = (dv, mm, fl, tg) := by
        simp [MyParamHook.sample_param_step, hrg]
      rw [hstep]
      exact ih dv mm tg fl (fun q hq => hfl q (List.mem_cons_of_mem p hq)) hnd'

/-- Helper: `sample_model_data` never touches `non_model_data_list`. -/
theorem sample_model_data_non_model (h : MyParamHook) (m : MemInfo)
    (params : List ParamT) :
    (MyParamHook.sample_model_data h m params).2.non_model_data_list =
      m.non_model_data_list := by
  cases hph : h.training_phase <;> simp [MyParamHook.sample_model_data, hph]

/-- C4: a backward-phase `pre_op` with positive pending gradient volume and
recorded samples overwrites the last non-model sample in place with the
maximum of (a) the previous non-model sample, (b) monitor usage minus
pending grad minus last model-data sample, (c) currently allocated memory
minus the running model-data estimate, and zeroes the pending volume; the
sample list keeps its length (overwrite, not append), and the recorded
value is that maximum. -/
theorem C4_backward_collapse (h : MyParamHook) (m : MemInfo)
    (params : List ParamT) (cuda_volume mem_allocated : Int)
    (hphase : h.training_phase = .BACKWARD)
    (htemp : 0 < m.temp_grad_volume)
    (hmodel : m.model_data_list ≠ [])
    (hnon : m.non_model_data_list ≠ [])
    (hflags : ∀ p ∈ params, p.id ∉ m.unreleased_grad_flag)
    (hnodup : (params.map ParamT.id).Nodup) :
    ∃ h' m', MyParamHook.pre_op h m params cuda_volume mem_allocated = .ok (h', m') ∧
      m'.non_model_data_list = m.non_model_data_list.dropLast ++
        [max (m.non_model_data_list.getLastD 0)
          (max (cuda_volume - m.temp_grad_volume - m.model_data_list.getLastD 0)
            (mem_allocated - h.model_data_mem))] ∧
      m'.non_model_data_list.length = m.non_model_data_list.length ∧
      m'.temp_grad_volume = 0 := by
  have hml : m.model_data_list.length ≠ 0 := by
    simpa [List.length_eq_zero] using hmodel
  have hnl : m.non_model_data_list.length ≠ 0 := by
    simpa [List.length_eq_zero] using hnon
  set m1 : MemInfo := { m with
    non_model_data_list := m.non_model_data_list.dropLast ++
      [max (m.non_model_data_list.getLastD 0)
        (max (cuda_volume - m.temp_grad_volume - m.model_data_list.getLastD 0)
          (mem_allocated - h.model_data_mem))]
    temp_grad_volume := 0 } with hm1
  have hpre : MyParamHook.pre_op h m params cuda_volume mem_allocated =
      .ok (MyParamHook.sample_model_data h m1 params) := by
    rw [MyParamHook.pre_op]
    rw [if_pos hml, if_pos ⟨hphase, htemp⟩, if_neg hnl]
    rfl
  refine ⟨(MyParamHook.sample_model_data h m1 params).1,
    (MyParamHook.sample_model_data h m1 params).2, by rw [hpre], ?_, ?_, ?_⟩
  · rw [sample_model_data_non_model]
  · rw [sample_model_data_non_model]
    have : m.non_model_data_list.dropLast.length = m.non_model_data_list.length - 1 :=
      List.length_dropLast _
    simp only [hm1, List.length_append, List.length_cons, List.length_nil, this]
    omega
  · have htg : (MyParamHook.sample_model_data h m1 params).2.temp_grad_volume =
        m1.temp_grad_volume := by
      rw [MyParamHook.sample_model_data, hphase]
      exact sample_fold_temp params h.model_data_mem h.model_data_mem
        m1.temp_grad_volume m1.unreleased_grad_flag hflags hnodup
    rw [htg]

/-- C4 witness: with previous sample 30, pending grad 8, last model sample
50, monitor reading 70, allocation 145 and estimate 100, the collapsed
sample is `max 30 (max 12 45) = 45` — and not the sum `87`. -/
theorem C4_witness :
    (∃ h' m', MyParamHook.pre_op ⟨100, .BACKWARD⟩ ⟨[50], [30], [], 8⟩ [] 70 145 =
        .ok (h', m') ∧
      m'.non_model_data_list = [45] ∧ m'.temp_grad_volume = 0) ∧
    (45 : Int) ≠ 30 + 12 + 45 := by
  refine ⟨?_, by decide⟩
  obtain ⟨h', m', h1, h2, _, h4⟩ :=
    C4_backward_collapse ⟨100, .BACKWARD⟩ ⟨[50], [30], [], 8⟩ [] 70 145 rfl
      (by decide) (by decide) (by decide) (by intro p hp; cases hp) (by decide)
  refine ⟨h', m', h1, ?_, h4⟩
  rw [h2]
  decide

namespace StaticSim

/-- Helper: one argument step keeps an empty `grad_in_computed` map empty
(the flag is only written inside the branch that requires it to be set). -/
theorem phaseB_arg_step_gc (nodes : List FxNode) (acc : Int × List Nat × List Nat)
    (i : Nat) (hacc : acc.2.2 = []) :
    (phaseB_arg_step nodes acc i).2.2 = [] := by
  simp [phaseB_arg_step, hacc]

/-- Helper: the whole argument loop keeps `grad_in_computed` empty. -/
theorem phaseB_arg_fold_gc (nodes : List FxNode) (args : List Nat)
    (acc : Int × List Nat × List Nat) (hacc : acc.2.2 = []) :
    (args.foldl (phaseB_arg_step nodes) acc).2.2 = [] := by
  induction args generalizing acc with
  | nil => exact hacc
  | cons i tl ih =>
    rw [List.foldl_cons]
    exact ih _ (phaseB_arg_step_gc nodes acc i hacc)

/-- Helper: processing one Phase B node keeps `grad_in_computed` empty. -/
theorem phaseB_node_gc (nodes : List FxNode) (mlist : List String)
    (st : PhaseBState) (n : FxNode) (h : st.gradComputed = []) :
    (phaseB_node nodes mlist st n).gradComputed = [] := by
  rw [phaseB_node]
  by_cases h1 : pyIn "where" n.name
  · simp [h1, h]
  · by_cases h2 : pyIn "truediv" n.name
    · simp [h1, h2, h]
    · have hfold := phaseB_arg_fold_gc nodes n.args
        (st.total + (n.bwd_mem_tmp : Int) + (n.bwd_mem_out : Int) - (n.bwd_mem_tmp : Int) -
          (n.fwd_tmp : Int) - gradInBytes n, st.released, st.gradComputed) h
      by_cases h3 : isBoundaryNode mlist n <;> simp [h1, h2, h3, hfold]

/-- Helper: every state reached by the Phase B scan from a
`grad_in_computed = {}` start still has it empty. -/
theorem phaseB_scanl_gc (nodes : List FxNode) (mlist : List String) :
    ∀ (l : List FxNode) (st : PhaseBState), st.gradComputed = [] →
      ∀ st' ∈ l.scanl (phaseB_node nodes mlist) st, st'.gradComputed = [] := by
  intro l
  induction l with
  | nil =>
    intro st h st' hmem
    rw [List.scanl_nil] at hmem
    rw [List.mem_singleton.mp hmem]
    exact h
  | cons n tl ih =>
    intro st h st' hmem
    rw [List.scanl_cons] at hmem
    rcases List.mem_cons.mp hmem with heq | htl
    · rw [heq]; exact h
    · exact ih (phaseB_node nodes mlist st n) (phaseB_node_gc nodes mlist st n h) st' htl

end StaticSim

/-- C1: the second-reference collapse never fires.  In every state of every
Phase B run the `grad_in_computed` map is empty — the source only sets
`grad_in_computed[in_node] = True` inside the branch guarded by
`grad_in_computed.get(in_node, False)`, so no producer is ever recorded as
"gradient already computed" and the extra subtraction of its
forward-output bytes never happens.  On the two-consumer graph the running
total ends at `-4`: the 4 shared bytes are released once (by the first
consumer processed) and never subtracted a second time at the other
consumer, where the intended collapse would have produced `-8`. -/
theorem C1_second_reference_collapse_dead :
    (∀ (nodes : List FxNode) (mlist : List String) (total : Int) (samples : List Int),
      ((StaticSim.phaseB_trace nodes mlist (StaticSim.phaseB_init total samples)).all
        (fun st => st.gradComputed.isEmpty)) = true) ∧
    (StaticSim.phaseB_run c1graph [] (StaticSim.phaseB_init 4 [])).total = -4 := by
  constructor
  · intro nodes mlist total samples
    rw [List.all_eq_true]
    intro st hst
    have hgc := StaticSim.phaseB_scanl_gc nodes mlist nodes.reverse
      (StaticSim.phaseB_init total samples) rfl st hst
    simp [hgc]
  · decide

namespace StaticSim

/-- Helper: Phase A appends one sample per boundary node. -/
theorem phaseA_fold_samples (mlist : List String) :
    ∀ (l : List FxNode) (st : Int × List Int),
      (l.foldl (phaseA_step mlist) st).2.length =
        st.2.length + l.countP (isBoundaryNode mlist) := by
  intro l
  induction l with
  | nil => intro st; simp
  | cons n tl ih =>
    intro st
    rw [List.foldl_cons, List.countP_cons]
    by_cases hb : isBoundaryNode mlist n
    · have hstep : phaseA_step mlist st n =
          (st.1 + (n.fwd_tmp : Int) + (n.fwd_out : Int),
            st.2 ++ [st.1 + (n.fwd_tmp : Int) + (n.fwd_out : Int)]) := by
        simp [phaseA_step, hb]
      rw [hstep, ih]
      simp [hb]
      omega
    · have hstep : phaseA_step mlist st n =
          (st.1 + (n.fwd_tmp : Int) + (n.fwd_out : Int), st.2) := by
        simp [phaseA_step, hb]
      rw [hstep, ih]
      simp [hb]

/-- The Phase B predicate for nodes that record a sample: not name-skipped
and a module-boundary call. -/
def recordsSample (mlist : List String) (n : FxNode) : Bool :=
  !pyIn "where" n.name && !pyIn "truediv" n.name && isBoundaryNode mlist n

/-- Helper: one Phase B node appends one sample iff it records one. -/
theorem phaseB_node_samples_len (nodes : List FxNode) (mlist : List String)
    (st : PhaseBState) (n : FxNode) :
    (phaseB_node nodes mlist st n).samples.length =
      st.samples.length + (if recordsSample mlist n then 1 else 0) := by
  rw [phaseB_node]
  by_cases h1 : pyIn "where" n.name
  · simp [recordsSample, h1]
  · by_cases h2 : pyIn "truediv" n.name
    · simp [recordsSample, h1, h2]
    · by_cases h3 : isBoundaryNode mlist n <;>
        simp [recordsSample, h1, h2, h3]

/-- Helper: the Phase B traversal appends one sample per recording node. -/
theorem phaseB_fold_samples (nodes : List FxNode) (mlist : List String) :
    ∀ (l : List FxNode) (st : PhaseBState),
      (l.foldl (phaseB_node nodes mlist) st).samples.length =
        st.samples.length + l.countP (recordsSample mlist) := by
  intro l
  induction l with
  | nil => intro st; simp
  | cons n tl ih =>
    intro st
    rw [List.foldl_cons, List.countP_cons, ih, phaseB_node_samples_len]
    by_cases hr : recordsSample mlist n <;> simp [hr] <;> omega

/-- Helper: zeroing the backward costs of a boundary node changes neither
the boundary test nor the node name. -/
theorem zeroBwd_boundary (mlist : List String) (n : FxNode) :
    isBoundaryNode mlist (zeroBwdOnBoundary mlist n) = isBoundaryNode mlist n := by
  rw [zeroBwdOnBoundary]
  split <;> rfl

/-- Helper: `zeroBwdOnBoundary` keeps the node name. -/
theorem zeroBwd_name (mlist : List String) (n : FxNode) :
    (zeroBwdOnBoundary mlist n).name = n.name := by
  rw [zeroBwdOnBoundary]
  split <;> rfl

end StaticSim

/-- C2 (amended): one run of the static simulation produces **twice** the
number of module-boundary calls present in the graph — one sample recorded
by the forward phase and one by the backward phase per boundary (the claim
counted each boundary once).  Under the side conditions that no boundary
node carries a skip name (`where`/`truediv`) and that each registered
module's wrapped call appears exactly once, this is twice the number of
`ModuleBoundaryEntry` items whose wrapped call appears in the graph. -/
theorem C2_sample_count (nodes : List FxNode) (mlist : List String)
    (hnoskip : ∀ n ∈ nodes, StaticSim.isBoundaryNode mlist n = true →
      StaticSim.pyIn "where" n.name = false ∧
      StaticSim.pyIn "truediv" n.name = false) :
    (StaticSim.init_mem_stats nodes mlist).1.length =
        2 * StaticSim.boundaryCount nodes mlist ∧
    (StaticSim.boundaryCount nodes mlist =
        StaticSim.registryAppearingCount nodes mlist →
      (StaticSim.init_mem_stats nodes mlist).1.length =
        2 * StaticSim.registryAppearingCount nodes mlist) := by
  have hmain : (StaticSim.init_mem_stats nodes mlist).1.length =
      2 * StaticSim.boundaryCount nodes mlist := by
    rw [StaticSim.init_mem_stats]
    have hA := StaticSim.phaseA_fold_samples mlist nodes (0, ([] : List Int))
    have hB := StaticSim.phaseB_fold_samples
      (nodes.map (StaticSim.zeroBwdOnBoundary mlist)) mlist
      (nodes.map (StaticSim.zeroBwdOnBoundary mlist)).reverse
    rw [StaticSim.phaseB_run]
    rw [hB]
    have hcnt : (nodes.map (StaticSim.zeroBwdOnBoundary mlist)).reverse.countP
        (StaticSim.recordsSample mlist) = nodes.countP (StaticSim.isBoundaryNode mlist) := by
      rw [List.countP_reverse, List.countP_map]
      apply List.countP_congr
      intro n hn
      simp only [Function.comp_apply, StaticSim.recordsSample, StaticSim.zeroBwd_name,
        StaticSim.zeroBwd_boundary]
      by_cases hb : StaticSim.isBoundaryNode mlist n
      · obtain ⟨hw, ht⟩ := hnoskip n hn hb
        simp [hb, hw, ht]
      · simp [hb]
    rw [hcnt]
    have hlenA : ((nodes.foldl (StaticSim.phaseA_step mlist) (0, ([] : List Int))).2 ++
        [(nodes.foldl (StaticSim.phaseA_step mlist) (0, ([] : List Int))).1]).length =
        nodes.countP (StaticSim.isBoundaryNode mlist) + 1 := by
      rw [List.length_append, hA]
      simp
    rw [StaticSim.phaseB_init]
    simp only [List.length_drop, hlenA]
    rw [StaticSim.boundaryCount, ← List.countP_eq_length_filter]
    omega
  exact ⟨hmain, fun h => by rw [hmain, h]⟩

/-- C2 witness: on the single-boundary graph the run produces two samples,
twice the one boundary call. -/
theorem C2_witness :
    (StaticSim.init_mem_stats c2graph ["layer1"]).1.length =
      2 * StaticSim.boundaryCount c2graph ["layer1"] :=
  (C2_sample_count c2graph ["layer1"] (by decide)).1

/-- C2 counterexample: the single-boundary graph produces two non-model
samples while exactly one registered module's wrapped call appears in the
graph, refuting the claimed equality. -/
theorem C2_counterexample :
    (StaticSim.init_mem_stats c2graph ["layer1"]).1.length = 2 ∧
    StaticSim.registryAppearingCount c2graph ["layer1"] = 1 ∧
    (StaticSim.init_mem_stats c2graph ["layer1"]).1.length ≠
      StaticSim.registryAppearingCount c2graph ["layer1"] :=
  ⟨by decide, by decide, by decide⟩

namespace StaticSim

theorem foldl_add_cast_nonneg (l : List Nat) :
    ∀ a : Int, 0 ≤ a → 0 ≤ l.foldl (fun a (b : Nat) => a + (b : Int)) a := by
  induction l with
  | nil => intro a ha; exact ha
  | cons b tl ih =>
    intro a ha
    rw [List.foldl_cons]
    exact ih _ (by positivity)

theorem gradInBytes_nonneg (n : FxNode) : 0 ≤ gradInBytes n :=
  foldl_add_cast_nonneg n.fwd_out_tensors 0 le_rfl

theorem phaseB_arg_step_le (nodes : List FxNode)
    (acc : Int × List Nat × List Nat) (i : Nat) :
    (phaseB_arg_step nodes acc i).1 ≤ acc.1 := by
  have hf : (0 : Int) ≤ (fwd_out_of nodes i : Int) := Int.natCast_nonneg _
  rw [phaseB_arg_step]
  by_cases h1 : 0 < fwd_out_of nodes i ∧ i ∉ acc.2.1 <;>
    by_cases h2 : i ∈ acc.2.2 <;>
    simp [h1, h2] <;> omega

theorem phaseB_arg_fold_le (nodes : List FxNode) (args : List Nat) :
    ∀ (acc : Int × List Nat × List Nat),
      (args.foldl (phaseB_arg_step nodes) acc).1 ≤ acc.1 := by
  induction args with
  | nil => intro acc; exact le_rfl
  | cons i tl ih =>
    intro acc
    rw [List.foldl_cons]
    exact le_trans (ih _) (phaseB_arg_step_le nodes acc i)

theorem phaseB_arg_step_readd (nodes : List FxNode) (t : Int)
    (rel gc : List Nat) (i : Nat) (hi : i ∉ rel) :
    (phaseB_arg_step nodes (t, rel, gc) i).1 + (fwd_out_of nodes i : Int) ≤ t := by
  have hf : (0 : Int) ≤ (fwd_out_of nodes i : Int) := Int.natCast_nonneg _
  rw [phaseB_arg_step]
  by_cases h2 : i ∈ gc <;> by_cases h1 : 0 < fwd_out_of nodes i <;>
    simp [h1, h2, hi] <;> omega

theorem phaseB_output_readd_le (nodes : List FxNode) (args : List Nat)
    (t : Int) (rel gc : List Nat)
    (hlen : args.length ≤ 1) (hrel : ∀ i ∈ args, i ∉ rel) :
    (args.foldl (phaseB_arg_step nodes) (t, rel, gc)).1 +
      args.foldl (fun a i => a + (fwd_out_of nodes i : Int)) 0 ≤ t := by
  match args with
  | [] => simpa using le_rfl
  | [i] =>
    have hi : i ∉ rel := hrel i (List.mem_singleton.mpr rfl)
    simp only [List.foldl_cons, List.foldl_nil, zero_add]
    exact phaseB_arg_step_readd nodes t rel gc i hi
  | i :: j :: tl => simp at hlen

end StaticSim

namespace StaticSim

/-- Helper: processing one non-`output` node (or the `output` node with at
most one, still unreleased, argument) preserves `total <= peak`. -/
theorem phaseB_node_total_le_peak (nodes : List FxNode) (mlist : List String)
    (st : PhaseBState) (n : FxNode)
    (hst : st.total ≤ st.peak)
    (hout : n.name ≠ "output" ∨
      (n.args.length ≤ 1 ∧ ∀ i ∈ n.args, i ∉ st.released)) :
    (phaseB_node nodes mlist st n).total ≤ (phaseB_node nodes mlist st n).peak := by
  rw [phaseB_node]
  by_cases h1 : pyIn "where" n.name
  · simpa [h1] using hst
  · by_cases h2 : pyIn "truediv" n.name
    · simpa [h1, h2] using hst
    · by_cases hb : isBoundaryNode mlist n
      · simp [h1, h2, hb]
      · simp only [h1, h2, hb, if_false, Bool.false_eq_true]
        have hG := gradInBytes_nonneg n
        have hft : (0 : Int) ≤ (n.fwd_tmp : Int) := Int.natCast_nonneg _
        have h31 : st.total + (n.bwd_mem_tmp : Int) + (n.bwd_mem_out : Int) -
            (n.bwd_mem_tmp : Int) - (n.fwd_tmp : Int) - gradInBytes n ≤
            st.total + (n.bwd_mem_tmp : Int) + (n.bwd_mem_out : Int) := by
          omega
        by_cases ho : n.name = "output"
        · have hargs : n.args.length ≤ 1 ∧ ∀ i ∈ n.args, i ∉ st.released := by
            rcases hout with hne | h
            · exact absurd ho hne
            · exact h
          rw [if_pos (by simp [ho])]
          refine le_trans (le_trans (phaseB_output_readd_le nodes n.args _
            st.released st.gradComputed hargs.1 hargs.2) h31) (le_max_right _ _)
        · rw [if_neg (by simp [ho])]
          refine le_trans (le_trans (phaseB_arg_fold_le nodes n.args _) h31)
            (le_max_right _ _)

end StaticSim

namespace StaticSim

/-- Placeholder node used as the `getD` default when indexing. -/
def defaultNode : FxNode :=
  { name := "", op := "", target := "", args := [], fwd_tmp := 0, fwd_out := 0
    bwd_mem_tmp := 0, bwd_mem_out := 0, fwd_out_tensors := [] }

/-- Helper: across one Phase B node the peak either does not decrease or
the node is a module boundary whose reset makes `peak = total`. -/
theorem phaseB_node_peak_step (nodes : List FxNode) (mlist : List String)
    (st : PhaseBState) (n : FxNode) :
    st.peak ≤ (phaseB_node nodes mlist st n).peak ∨
    (isBoundaryNode mlist n = true ∧
      (phaseB_node nodes mlist st n).peak = (phaseB_node nodes mlist st n).total) := by
  rw [phaseB_node]
  by_cases h1 : pyIn "where" n.name
  · left; simp [h1]
  · by_cases h2 : pyIn "truediv" n.name
    · left; simp [h1, h2]
    · by_cases hb : isBoundaryNode mlist n
      · right
        refine ⟨hb, ?_⟩
        simp [h1, h2, hb]
      · left
        simp only [h1, h2, hb, if_false, Bool.false_eq_true]
        exact le_max_left _ _

/-- Helper: the scan of a fold starts with the initial state. -/
theorem scanl_getD_zero {α β : Type} (f : β → α → β) (b dflt : β) (l : List α) :
    (l.scanl f b).getD 0 dflt = b := by
  cases l <;> rfl

/-- Helper: consecutive scan entries are related by one fold step. -/
theorem scanl_getD_succ {α β : Type} (f : β → α → β) (dβ : β) (dα : α) :
    ∀ (l : List α) (b : β) (k : Nat), k < l.length →
      (l.scanl f b).getD (k + 1) dβ =
        f ((l.scanl f b).getD k dβ) (l.getD k dα) := by
  intro l
  induction l with
  | nil => intro b k h; exact absurd h (by simp)
  | cons a tl ih =>
    intro b k h
    rw [List.scanl_cons, List.singleton_append]
    cases k with
    | zero =>
      simp only [List.getD_cons_succ, List.getD_cons_zero]
      rw [scanl_getD_zero]
    | succ k' =>
      simp only [List.getD_cons_succ]
      exact ih (f b a) k' (by simpa using h)

/-- Helper: `total <= peak` propagates along a Phase B scan that contains
no `output`-named node. -/
theorem phaseB_scanl_inv (nodes : List FxNode) (mlist : List String) :
    ∀ (l : List FxNode) (st : PhaseBState),
      st.total ≤ st.peak → (∀ n ∈ l, n.name ≠ "output") →
      ∀ st' ∈ l.scanl (phaseB_node nodes mlist) st, st'.total ≤ st'.peak := by
  intro l
  induction l with
  | nil =>
    intro st h _ st' hm
    rw [List.scanl_nil] at hm
    rw [List.mem_singleton.mp hm]
    exact h
  | cons n tl ih =>
    intro st h hno st' hm
    rw [List.scanl_cons] at hm
    rcases List.mem_cons.mp hm with heq | htl
    · rw [heq]; exact h
    · refine ih (phaseB_node nodes mlist st n) ?_ ?_ st' htl
      · exact phaseB_node_total_le_peak nodes mlist st n h
          (Or.inl (hno n (List.mem_cons_self n tl)))
      · intro m hm2
        exact hno m (List.mem_cons_of_mem n hm2)

end StaticSim

/-- C3: throughout Phase B (run from the Phase A hand-over state, on any
graph whose designated `output` node is the last node and has at most one
argument, as `torch.fx` guarantees), every reached state satisfies
`total <= peak`; and across each step the peak does not decrease except at
a module-boundary node, where the explicit reset leaves `peak = total`. -/
theorem C3_peak_ge_total (nodes : List FxNode) (mlist : List String)
    (total : Int) (samples : List Int)
    (houtLast : ∀ n ∈ nodes.dropLast, n.name ≠ "output")
    (houtArity : ∀ n ∈ nodes, n.name = "output" → n.args.length ≤ 1) :
    (∀ st ∈ StaticSim.phaseB_trace nodes mlist (StaticSim.phaseB_init total samples),
      st.total ≤ st.peak) ∧
    (∀ k, k < nodes.length →
      ((StaticSim.phaseB_trace nodes mlist
          (StaticSim.phaseB_init total samples)).getD k
          (StaticSim.phaseB_init total samples)).peak ≤
        ((StaticSim.phaseB_trace nodes mlist
          (StaticSim.phaseB_init total samples)).getD (k + 1)
          (StaticSim.phaseB_init total samples)).peak ∨
      (StaticSim.isBoundaryNode mlist
          (nodes.reverse.getD k StaticSim.defaultNode) = true ∧
        ((StaticSim.phaseB_trace nodes mlist
          (StaticSim.phaseB_init total samples)).getD (k + 1)
          (StaticSim.phaseB_init total samples)).peak =
        ((StaticSim.phaseB_trace nodes mlist
          (StaticSim.phaseB_init total samples)).getD (k + 1)
          (StaticSim.phaseB_init total samples)).total)) := by
  constructor
  · intro st hst
    rw [StaticSim.phaseB_trace] at hst
    cases hrev : nodes.reverse with
    | nil =>
      rw [hrev, List.scanl_nil] at hst
      rw [List.mem_singleton.mp hst]
      exact le_rfl
    | cons r0 rest =>
      rw [hrev, List.scanl_cons] at hst
      rcases List.mem_cons.mp hst with heq | htl
      · rw [heq]; exact le_rfl
      · have hr0mem : r0 ∈ nodes := by
          have h0 : r0 ∈ nodes.reverse := by
            rw [hrev]; exact List.mem_cons_self _ _
          exact List.mem_reverse.mp h0
        have hinv0 : (StaticSim.phaseB_node nodes mlist
            (StaticSim.phaseB_init total samples) r0).total ≤
            (StaticSim.phaseB_node nodes mlist
            (StaticSim.phaseB_init total samples) r0).peak := by
          apply StaticSim.phaseB_node_total_le_peak
          · exact le_rfl
          · by_cases ho : r0.name = "output"
            · exact Or.inr ⟨houtArity r0 hr0mem ho,
                by intro i hi; simp [StaticSim.phaseB_init]⟩
            · exact Or.inl ho
        have hnodes : nodes = rest.reverse ++ [r0] := by
          have h1 := congrArg List.reverse hrev
          rw [List.reverse_reverse, List.reverse_cons] at h1
          exact h1
        have hrest : ∀ n ∈ rest, n.name ≠ "output" := by
          intro n hn
          apply houtLast
          rw [hnodes, List.dropLast_concat]
          exact List.mem_reverse.mpr hn
        exact StaticSim.phaseB_scanl_inv nodes mlist rest _ hinv0 hrest st htl
  · intro k hk
    have hk' : k < nodes.reverse.length := by simpa using hk
    have hstep := StaticSim.scanl_getD_succ (StaticSim.phaseB_node nodes mlist)
      (StaticSim.phaseB_init total samples) StaticSim.defaultNode nodes.reverse
      (StaticSim.phaseB_init total samples) k hk'
    rw [StaticSim.phaseB_trace, hstep]
    exact StaticSim.phaseB_node_peak_step nodes mlist _ _

/-- C3 witness: on the concrete single-boundary graph every Phase B state
satisfies `total <= peak`. -/
theorem C3_witness :
    ((StaticSim.phaseB_trace c2graph ["layer1"]
        (StaticSim.phaseB_init 12 [])).all
      (fun st => decide (st.total ≤ st.peak))) = true := by
  have h := (C3_peak_ge_total c2graph ["layer1"] 12 [] (by decide) (by decide)).1
  rw [List.all_eq_true]
  intro st hst
  simpa using h st hst
